import Mathlib

/-!
Verification development for the big-brother-server check-in service.

The definitions below are a shallow embedding of the Rust sources:
validation (src/models.rs), persistence over SQLite (src/db.rs),
the HTTP handlers (src/handlers.rs), the error mapping (src/errors.rs)
and the router / admission-control wiring (src/main.rs).
Library behaviour the sources rely on (serde JSON, std IP parsing,
chrono RFC 3339 parsing, SQLite transactions) is embedded alongside,
staying as close to the libraries' documented semantics as needed by
the properties proved at the end of the file.
-/

/-! # Validation engine (src/models.rs) -/

/-- Embeds models.rs validate_printable_ascii_required: every char is
ASCII (code point at most 127) and not an ASCII control character
(0..=0x1F or 0x7F), exactly Rust is_ascii and is_ascii_control. -/
def validate_printable_ascii_required (s : String) : Bool :=
  s.data.all (fun c => c.toNat ≤ 127 && !(c.toNat < 32 || c.toNat == 127))

/-- Embeds models.rs validate_hostname: all chars ASCII alphanumeric,
hyphen or underscore, and both the first and the last char (when they
exist) ASCII alphanumeric. -/
def validate_hostname (hostname : String) : Bool :=
  hostname.data.all (fun c => c.isAlphanum || c == '-' || c == '_')
  && (match hostname.data.head? with
      | some c => c.isAlphanum
      | none => false)
  && (match hostname.data.getLast? with
      | some c => c.isAlphanum
      | none => false)

/-- Numeric value of a list of ASCII digits (most significant first). -/
def decimalValue (cs : List Char) : Nat :=
  cs.foldl (fun n c => n * 10 + (c.toNat - 48)) 0

/-- Splitting on one separator character, keeping empty pieces, as
Rust str::split on a char pattern does. -/
def splitOnChar (sep : Char) : List Char → List (List Char)
  | [] => [[]]
  | c :: rest =>
    if c == sep then [] :: splitOnChar sep rest
    else
      match splitOnChar sep rest with
      | g :: gs => (c :: g) :: gs
      | [] => [[c]]

/-- Splitting on the two-character separator double-colon, leftmost
non-overlapping matches, keeping empty pieces. -/
def splitOnDoubleColon : List Char → List (List Char)
  | [] => [[]]
  | ':' :: ':' :: rest => [] :: splitOnDoubleColon rest
  | c :: rest =>
    match splitOnDoubleColon rest with
    | g :: gs => (c :: g) :: gs
    | [] => [[c]]

/-- One dotted-quad octet: non-empty, all digits, no redundant leading
zero, value at most 255 (std rejects leading zeros). -/
def ipv4OctetOk (p : List Char) : Bool :=
  !p.isEmpty && p.all Char.isDigit
  && (p.length == 1 || p.head? != some '0')
  && decimalValue p ≤ 255

/-- Embeds std::net::Ipv4Addr textual parsing as called by
models.rs validate_ip_address: four dot-separated octets. -/
def validate_ipv4 (s : String) : Bool :=
  let parts := splitOnChar '.' s.data
  parts.length == 4 && parts.all ipv4OctetOk

/-- ASCII hex digit test (std u16::from_str_radix 16 on h16 groups). -/
def isHexDigitChar (c : Char) : Bool :=
  c.isDigit || ('a' ≤ c && c ≤ 'f') || ('A' ≤ c && c ≤ 'F')

/-- An IPv6 h16 group: one to four hex digits. -/
def isH16 (g : List Char) : Bool :=
  1 ≤ g.length && g.length ≤ 4 && g.all isHexDigitChar

/-- Counts the 16-bit groups of a colon-separated IPv6 piece, allowing
a trailing dotted-quad (two groups) when v4Last is set; none on a
malformed group.  Embeds std::net::Ipv6Addr group scanning. -/
def ipv6GroupCount (gs : List (List Char)) (v4Last : Bool) : Option Nat :=
  match gs with
  | [] => some 0
  | [g] =>
    if isH16 g then some 1
    else if v4Last && (let parts := splitOnChar '.' g
                       parts.length == 4 && parts.all ipv4OctetOk) then some 2
    else none
  | g :: rest =>
    if isH16 g then (ipv6GroupCount rest v4Last).map (· + 1) else none

/-- Splits a non-empty IPv6 side on single colons. -/
def colonGroups (cs : List Char) : List (List Char) :=
  if cs.isEmpty then [] else splitOnChar ':' cs

/-- Embeds std::net::Ipv6Addr textual parsing as called by
models.rs validate_ip_address: eight h16 groups (a trailing dotted
quad counting as two), or one double-colon compressing at least one
zero group. -/
def validate_ipv6 (s : String) : Bool :=
  match splitOnDoubleColon s.data with
  | [whole] =>
    (match ipv6GroupCount (colonGroups whole) true with
     | some n => n == 8
     | none => false)
  | [l, r] =>
    (match ipv6GroupCount (colonGroups l) false,
           ipv6GroupCount (colonGroups r) true with
     | some nl, some nr => nl + nr ≤ 7
     | _, _ => false)
  | _ => false

/-- Embeds models.rs validate_ip_address: std::net::IpAddr::from_str
succeeds, i.e. the text is an IPv4 or an IPv6 address. -/
def validate_ip_address (s : String) : Bool :=
  validate_ipv4 s || validate_ipv6 s

/-- Gregorian leap year (chrono calendar validity). -/
def isLeapYear (y : Nat) : Bool :=
  (y % 4 == 0 && y % 100 != 0) || y % 400 == 0

/-- Days in a month of the proleptic Gregorian calendar. -/
def daysInMonth (y m : Nat) : Nat :=
  if m == 2 then (if isLeapYear y then 29 else 28)
  else if m == 4 || m == 6 || m == 9 || m == 11 then 30
  else 31

/-- Calendar-valid date, as chrono enforces while parsing. -/
def validDate (y m d : Nat) : Bool :=
  1 ≤ m && m ≤ 12 && 1 ≤ d && d ≤ daysInMonth y m

/-- Reads exactly k ASCII digits, returning their value and the rest. -/
def takeDigits : Nat → List Char → Option (Nat × List Char)
  | 0, cs => some (0, cs)
  | _ + 1, [] => none
  | k + 1, c :: cs =>
    if c.isDigit then
      (takeDigits k cs).map (fun p => (p.1 + (c.toNat - 48) * 10 ^ k, p.2))
    else none

/-- Drops an optional fractional-seconds part: a dot followed by at
least one digit (chrono accepts any number of digits). -/
def dropFraction (cs : List Char) : Option (List Char) :=
  match cs with
  | '.' :: rest =>
    if (rest.takeWhile Char.isDigit).isEmpty then none
    else some (rest.dropWhile Char.isDigit)
  | _ => some cs

/-- A numeric UTC offset tail sign-hh:mm with hh at most 23, mm at most
59, consuming the whole remainder. -/
def numericOffsetOk (cs : List Char) : Bool :=
  match takeDigits 2 cs with
  | some (hh, ':' :: rest) =>
    (match takeDigits 2 rest with
     | some (mm, []) => hh ≤ 23 && mm ≤ 59
     | _ => false)
  | _ => false

/-- The offset part of an RFC 3339 date-time: Z, z, or sign-hh:mm. -/
def offsetOk (cs : List Char) : Bool :=
  match cs with
  | ['Z'] => true
  | ['z'] => true
  | '+' :: rest => numericOffsetOk rest
  | '-' :: rest => numericOffsetOk rest
  | _ => false

/-- Embeds chrono DateTime::parse_from_rfc3339 as called by
models.rs validate_timestamp: full-date, date/time separator,
partial-time with optional fraction, mandatory offset, calendar and
field-range validity (seconds may be 60 for a leap second). -/
def rfc3339Ok (cs : List Char) : Bool :=
  match takeDigits 4 cs with
  | some (y, '-' :: cs1) =>
    (match takeDigits 2 cs1 with
     | some (mo, '-' :: cs2) =>
       (match takeDigits 2 cs2 with
        | some (d, sep :: cs3) =>
          (sep == 'T' || sep == 't' || sep == ' ')
          && (match takeDigits 2 cs3 with
              | some (hh, ':' :: cs4) =>
                (match takeDigits 2 cs4 with
                 | some (mi, ':' :: cs5) =>
                   (match takeDigits 2 cs5 with
                    | some (ss, cs6) =>
                      validDate y mo d && hh ≤ 23 && mi ≤ 59 && ss ≤ 60
                      && (match dropFraction cs6 with
                          | some cs7 => offsetOk cs7
                          | none => false)
                    | none => false)
                 | _ => false)
              | _ => false)
        | _ => false)
     | _ => false)
  | _ => false

/-- Embeds models.rs validate_timestamp. -/
def validate_timestamp (s : String) : Bool :=
  rfc3339Ok s.data

/-! # Data shapes (src/models.rs) -/

/-- models.rs Drive: the three declared fields; serde ignores any other
field of the incoming JSON object (no catch-all member exists). -/
structure Drive where
  model : String
  serial_number : Option String
  device_id : String
deriving DecidableEq

/-- models.rs CheckIn: the deserialized request body. -/
structure CheckIn where
  hostname : String
  ip_address : String
  logged_in_user : Option String
  laptop_serial : String
  drives : List Drive
  timestamp_utc : String
deriving DecidableEq

/-- The validator length rule on a string field: character count
between lo and hi inclusive. -/
def lengthBetween (lo hi : Nat) (s : String) : Bool :=
  lo ≤ s.length && s.length ≤ hi

/-- The field rules of models.rs Drive: model 1..=256 printable ASCII,
serial_number (when present) 0..=256 printable ASCII, device_id
1..=256 printable ASCII. -/
def Drive.validateFields (d : Drive) : Bool :=
  lengthBetween 1 256 d.model && validate_printable_ascii_required d.model
  && (match d.serial_number with
      | none => true
      | some sn => lengthBetween 0 256 sn && validate_printable_ascii_required sn)
  && lengthBetween 1 256 d.device_id && validate_printable_ascii_required d.device_id

/-- Embeds CheckIn::validate (derive(Validate) on models.rs CheckIn):
every rule is checked and every violated field is collected, in
declaration order; the empty list means the payload is valid. -/
def CheckIn.validateErrors (p : CheckIn) : List String :=
  (if lengthBetween 1 63 p.hostname && validate_hostname p.hostname
   then [] else ["hostname"])
  ++ (if validate_ip_address p.ip_address then [] else ["ip_address"])
  ++ (match p.logged_in_user with
      | none => []
      | some u =>
        if lengthBetween 0 512 u && validate_printable_ascii_required u
        then [] else ["logged_in_user"])
  ++ (if lengthBetween 1 128 p.laptop_serial
         && validate_printable_ascii_required p.laptop_serial
      then [] else ["laptop_serial"])
  ++ (if p.drives.length ≤ 32 && p.drives.all Drive.validateFields
      then [] else ["drives"])
  ++ (if validate_timestamp p.timestamp_utc then [] else ["timestamp_utc"])

/-! # JSON documents (serde_json as used by handlers.rs) -/

/-- A JSON document; numbers keep their textual lexeme, which is all
the code under study ever needs. -/
inductive Json where
  | null : Json
  | bool : Bool → Json
  | num : String → Json
  | str : String → Json
  | arr : List Json → Json
  | obj : List (String × Json) → Json

/-- serde_json string escaping: quote, backslash, the short control
escapes, and \u00XX for the remaining control characters. -/
def escapeJsonChar (c : Char) : List Char :=
  if c == '"' then ['\\', '"']
  else if c == '\\' then ['\\', '\\']
  else if c == '\x08' then ['\\', 'b']
  else if c == '\x09' then ['\\', 't']
  else if c == '\x0a' then ['\\', 'n']
  else if c == '\x0c' then ['\\', 'f']
  else if c == '\x0d' then ['\\', 'r']
  else if c.toNat < 32 then
    ['\\', 'u', '0', '0',
     (if c.toNat / 16 < 10 then Char.ofNat (48 + c.toNat / 16)
      else Char.ofNat (87 + c.toNat / 16)),
     (if c.toNat % 16 < 10 then Char.ofNat (48 + c.toNat % 16)
      else Char.ofNat (87 + c.toNat % 16))]
  else [c]

/-- A JSON string literal as serde_json prints it. -/
def renderJsonString (s : String) : String :=
  "\"" ++ String.mk (s.data.flatMap escapeJsonChar) ++ "\""

/-- Joins pieces with a separator (the join both serde_json rendering
and the index page's serial display perform). -/
def joinSep (sep : String) : List String → String
  | [] => ""
  | [x] => x
  | x :: xs => x ++ sep ++ joinSep sep xs

mutual
/-- Compact rendering, exactly serde_json::to_string. -/
def renderJson : Json → String
  | .null => "null"
  | .bool true => "true"
  | .bool false => "false"
  | .num s => s
  | .str s => renderJsonString s
  | .arr vs => "[" ++ joinSep "," (renderJsonList vs) ++ "]"
  | .obj kvs => "\x7b" ++ joinSep "," (renderJsonPairs kvs) ++ "\x7d"

def renderJsonList : List Json → List String
  | [] => []
  | v :: vs => renderJson v :: renderJsonList vs

def renderJsonPairs : List (String × Json) → List String
  | [] => []
  | (k, v) :: kvs =>
    (renderJsonString k ++ ":" ++ renderJson v) :: renderJsonPairs kvs
end

/-! JSON parsing (serde_json::from_str), fuel-based. -/

/-- JSON insignificant whitespace. -/
def skipWs : List Char → List Char
  | c :: rest =>
    if c == ' ' || c == '\x09' || c == '\x0a' || c == '\x0d'
    then skipWs rest else c :: rest
  | [] => []

/-- Value of one hex digit. -/
def hexVal (c : Char) : Option Nat :=
  if c.isDigit then some (c.toNat - 48)
  else if 'a' ≤ c && c ≤ 'f' then some (c.toNat - 87)
  else if 'A' ≤ c && c ≤ 'F' then some (c.toNat - 55)
  else none

/-- Value of a four-hex-digit escape. -/
def hex4 (a b c d : Char) : Option Nat :=
  match hexVal a, hexVal b, hexVal c, hexVal d with
  | some x, some y, some z, some w => some (((x * 16 + y) * 16 + z) * 16 + w)
  | _, _, _, _ => none

/-- Parses the body of a JSON string after the opening quote; raw
control characters are rejected, escape sequences (including
surrogate pairs) decoded, as serde_json does. -/
def parseJsonStr : List Char → Option (List Char × List Char)
  | [] => none
  | '"' :: rest => some ([], rest)
  | '\\' :: esc =>
    (match esc with
     | '"' :: rest => (parseJsonStr rest).map (fun p => ('"' :: p.1, p.2))
     | '\\' :: rest => (parseJsonStr rest).map (fun p => ('\\' :: p.1, p.2))
     | '/' :: rest => (parseJsonStr rest).map (fun p => ('/' :: p.1, p.2))
     | 'b' :: rest => (parseJsonStr rest).map (fun p => ('\x08' :: p.1, p.2))
     | 'f' :: rest => (parseJsonStr rest).map (fun p => ('\x0c' :: p.1, p.2))
     | 'n' :: rest => (parseJsonStr rest).map (fun p => ('\x0a' :: p.1, p.2))
     | 'r' :: rest => (parseJsonStr rest).map (fun p => ('\x0d' :: p.1, p.2))
     | 't' :: rest => (parseJsonStr rest).map (fun p => ('\x09' :: p.1, p.2))
     | 'u' :: a :: b :: c :: d :: rest =>
       (match hex4 a b c d with
        | none => none
        | some n =>
          if n < 0xD800 || 0xE000 ≤ n then
            (parseJsonStr rest).map (fun p => (Char.ofNat n :: p.1, p.2))
          else if n < 0xDC00 then
            (match rest with
             | '\\' :: 'u' :: e :: f :: g :: h :: rest2 =>
               (match hex4 e f g h with
                | some m =>
                  if 0xDC00 ≤ m && m < 0xE000 then
                    (parseJsonStr rest2).map (fun p =>
                      (Char.ofNat (0x10000 + (n - 0xD800) * 0x400 + (m - 0xDC00)) :: p.1, p.2))
                  else none
                | none => none)
             | _ => none)
          else none)
     | _ => none)
  | c :: rest =>
    if c.toNat < 32 then none
    else (parseJsonStr rest).map (fun p => (c :: p.1, p.2))

/-- The exponent tail of a JSON number lexeme. -/
def parseNumExp (acc : List Char) (cs : List Char) : Option (List Char × List Char) :=
  match cs with
  | 'e' :: rest =>
    (match rest with
     | '+' :: rest2 =>
       if (rest2.takeWhile Char.isDigit).isEmpty then none
       else some (acc ++ 'e' :: '+' :: rest2.takeWhile Char.isDigit,
                  rest2.dropWhile Char.isDigit)
     | '-' :: rest2 =>
       if (rest2.takeWhile Char.isDigit).isEmpty then none
       else some (acc ++ 'e' :: '-' :: rest2.takeWhile Char.isDigit,
                  rest2.dropWhile Char.isDigit)
     | _ =>
       if (rest.takeWhile Char.isDigit).isEmpty then none
       else some (acc ++ 'e' :: rest.takeWhile Char.isDigit,
                  rest.dropWhile Char.isDigit))
  | 'E' :: rest =>
    (match rest with
     | '+' :: rest2 =>
       if (rest2.takeWhile Char.isDigit).isEmpty then none
       else some (acc ++ 'E' :: '+' :: rest2.takeWhile Char.isDigit,
                  rest2.dropWhile Char.isDigit)
     | '-' :: rest2 =>
       if (rest2.takeWhile Char.isDigit).isEmpty then none
       else some (acc ++ 'E' :: '-' :: rest2.takeWhile Char.isDigit,
                  rest2.dropWhile Char.isDigit)
     | _ =>
       if (rest.takeWhile Char.isDigit).isEmpty then none
       else some (acc ++ 'E' :: rest.takeWhile Char.isDigit,
                  rest.dropWhile Char.isDigit))
  | _ => some (acc, cs)

/-- The fraction and exponent tail of a JSON number lexeme. -/
def parseNumFrac (acc : List Char) (cs : List Char) : Option (List Char × List Char) :=
  match cs with
  | '.' :: rest =>
    if (rest.takeWhile Char.isDigit).isEmpty then none
    else parseNumExp (acc ++ '.' :: rest.takeWhile Char.isDigit)
           (rest.dropWhile Char.isDigit)
  | _ => parseNumExp acc cs

/-- A JSON number lexeme: optional minus, an integer part without a
redundant leading zero, optional fraction and exponent. -/
def parseNum (cs : List Char) : Option (List Char × List Char) :=
  let core : List Char → List Char → Option (List Char × List Char) :=
    fun sign cs1 =>
      match cs1 with
      | '0' :: rest => parseNumFrac (sign ++ ['0']) rest
      | c :: rest =>
        if c.isDigit then
          parseNumFrac (sign ++ c :: rest.takeWhile Char.isDigit)
            (rest.dropWhile Char.isDigit)
        else none
      | [] => none
  match cs with
  | '-' :: rest => core ['-'] rest
  | _ => core [] cs

mutual
/-- Fuel-based JSON value parser (serde_json grammar). -/
def parseVal : Nat → List Char → Option (Json × List Char)
  | 0, _ => none
  | fuel + 1, cs =>
    match skipWs cs with
    | 'n' :: 'u' :: 'l' :: 'l' :: rest => some (.null, rest)
    | 't' :: 'r' :: 'u' :: 'e' :: rest => some (.bool true, rest)
    | 'f' :: 'a' :: 'l' :: 's' :: 'e' :: rest => some (.bool false, rest)
    | '"' :: rest =>
      (parseJsonStr rest).map (fun p => (.str (String.mk p.1), p.2))
    | '[' :: rest =>
      (match skipWs rest with
       | ']' :: rest2 => some (.arr [], rest2)
       | rest2 => parseElems fuel rest2 [])
    | '\x7b' :: rest =>
      (match skipWs rest with
       | '\x7d' :: rest2 => some (.obj [], rest2)
       | rest2 => parseMembers fuel rest2 [])
    | rest => (parseNum rest).map (fun p => (.num (String.mk p.1), p.2))

/-- Array elements after the first non-"]" character. -/
def parseElems : Nat → List Char → List Json → Option (Json × List Char)
  | 0, _, _ => none
  | fuel + 1, cs, acc =>
    match parseVal fuel cs with
    | none => none
    | some (v, rest) =>
      (match skipWs rest with
       | ',' :: rest2 => parseElems fuel rest2 (acc ++ [v])
       | ']' :: rest2 => some (.arr (acc ++ [v]), rest2)
       | _ => none)

/-- Object members after the first non-"}" character. -/
def parseMembers : Nat → List Char → List (String × Json) → Option (Json × List Char)
  | 0, _, _ => none
  | fuel + 1, cs, acc =>
    match skipWs cs with
    | '"' :: rest =>
      (match parseJsonStr rest with
       | none => none
       | some (k, rest2) =>
         (match skipWs rest2 with
          | ':' :: rest3 =>
            (match parseVal fuel rest3 with
             | none => none
             | some (v, rest4) =>
               (match skipWs rest4 with
                | ',' :: rest5 => parseMembers fuel rest5 (acc ++ [(String.mk k, v)])
                | '\x7d' :: rest5 => some (.obj (acc ++ [(String.mk k, v)]), rest5)
                | _ => none))
             | _ => none))
    | _ => none
end

/-- serde_json::from_str for a whole document: one value, then only
trailing whitespace. -/
def parseJson (s : String) : Option Json :=
  match parseVal (2 * s.length + 4) s.data with
  | some (v, rest) => if (skipWs rest).isEmpty then some v else none
  | none => none

/-! # Drive (de)serialization (serde derive on models.rs Drive) -/

/-- Intermediate field record of the derived Drive deserializer. -/
structure DriveFields where
  model : Option String
  serial_number : Option (Option String)
  device_id : Option String

/-- The derived deserializer's field loop: known keys must be strings
(serial_number may also be null), a duplicate known key is an error,
every other key is skipped without validation, as serde does when no
deny_unknown_fields attribute is present (models.rs Drive has none). -/
def decodeDriveFields : List (String × Json) → DriveFields → Option DriveFields
  | [], st => some st
  | (k, v) :: rest, st =>
    if k == "model" then
      match st.model, v with
      | none, .str s => decodeDriveFields rest { st with model := some s }
      | _, _ => none
    else if k == "serial_number" then
      match st.serial_number, v with
      | none, .str s => decodeDriveFields rest { st with serial_number := some (some s) }
      | none, .null => decodeDriveFields rest { st with serial_number := some none }
      | _, _ => none
    else if k == "device_id" then
      match st.device_id, v with
      | none, .str s => decodeDriveFields rest { st with device_id := some s }
      | _, _ => none
    else decodeDriveFields rest st

/-- serde deserialization of one Drive: an object with the required
model and device_id strings; a missing or null serial_number becomes
None. -/
def decodeDrive : Json → Option Drive
  | .obj fields =>
    (match decodeDriveFields fields ⟨none, none, none⟩ with
     | some st =>
       (match st.model, st.device_id with
        | some m, some d => some ⟨m, st.serial_number.getD none, d⟩
        | _, _ => none)
     | none => none)
  | _ => none

/-- serde deserialization of a Vec of Drives from an array. -/
def decodeDriveList : List Json → Option (List Drive)
  | [] => some []
  | v :: vs =>
    match decodeDrive v, decodeDriveList vs with
    | some d, some ds => some (d :: ds)
    | _, _ => none

/-- serde deserialization of Vec of Drives. -/
def decodeDrives : Json → Option (List Drive)
  | .arr vs => decodeDriveList vs
  | _ => none

/-- serde serialization of one Drive: exactly the three declared
fields, in declaration order; None serializes as null. -/
def serializeDrive (d : Drive) : Json :=
  .obj [("model", .str d.model),
        ("serial_number", match d.serial_number with
                          | some s => .str s
                          | none => .null),
        ("device_id", .str d.device_id)]

/-- serde serialization of a Vec of Drives. -/
def serializeDrives (ds : List Drive) : Json :=
  .arr (ds.map serializeDrive)

/-- serde_json::to_string(&payload.drives) in handlers.rs checkin. -/
def drives_jsonOf (p : CheckIn) : String :=
  renderJson (serializeDrives p.drives)

/-! # Persistence layer (src/db.rs) -/

/-- A row of the laptops table (current state, keyed by serial). -/
structure LaptopRow where
  laptop_serial : String
  hostname : String
  ip_address : String
  logged_in_user : Option String
  last_seen_utc : String
  drives_json : String
deriving DecidableEq

/-- A row of the checkins table (append-only audit log). -/
structure CheckinEventRow where
  id : Nat
  laptop_serial : String
  hostname : String
  ip_address : String
  logged_in_user : Option String
  timestamp_utc : String
  drives_json : String
deriving DecidableEq

/-- The projected row shape returned by get_checkins_by_serial
(models.rs CheckinRow). -/
structure CheckinRow where
  hostname : String
  ip_address : String
  logged_in_user : Option String
  timestamp_utc : String
deriving DecidableEq

/-- The SQLite store: both tables (rows in insertion order) and the
checkins AUTOINCREMENT counter. -/
structure DbState where
  laptops : List LaptopRow
  checkins : List CheckinEventRow
  nextId : Nat
deriving DecidableEq

/-- The empty store produced by open_and_init on a fresh file. -/
def DbState.empty : DbState := ⟨[], [], 1⟩

/-- INSERT INTO checkins: appends one audit row with the next id. -/
def DbState.insertCheckin (db : DbState) (serial hostname ip : String)
    (user : Option String) (ts dj : String) : DbState :=
  { db with
    checkins := db.checkins ++ [⟨db.nextId, serial, hostname, ip, user, ts, dj⟩],
    nextId := db.nextId + 1 }

/-- INSERT INTO laptops ... ON CONFLICT(laptop_serial) DO UPDATE SET
every non-key column: replaces the row with the conflicting primary
key, or appends when no row has that serial. -/
def upsertLaptop (row : LaptopRow) : List LaptopRow → List LaptopRow
  | [] => [row]
  | l :: ls =>
    if l.laptop_serial == row.laptop_serial then row :: ls
    else l :: upsertLaptop row ls

/-- The laptops upsert lifted to the store. -/
def DbState.upsertLaptopRow (db : DbState) (row : LaptopRow) : DbState :=
  { db with laptops := upsertLaptop row db.laptops }

/-- db.rs get_all_laptops: SELECT ... FROM laptops ORDER BY
last_seen_utc DESC (SQLite BINARY text collation, which on UTF-8
agrees with code-point order). -/
def get_all_laptops (db : DbState) : List LaptopRow :=
  List.insertionSort (fun a b => b.last_seen_utc ≤ a.last_seen_utc) db.laptops

/-- db.rs get_laptop_by_serial: SELECT ... WHERE laptop_serial = ?,
first matching row or an explicit absence. -/
def get_laptop_by_serial (db : DbState) (serial : String) : Option LaptopRow :=
  db.laptops.find? (fun l => l.laptop_serial == serial)

/-- db.rs get_checkins_by_serial: SELECT hostname, ip_address,
logged_in_user, timestamp_utc FROM checkins WHERE laptop_serial = ?
ORDER BY timestamp_utc DESC. -/
def get_checkins_by_serial (db : DbState) (serial : String) : List CheckinRow :=
  (List.insertionSort (fun a b => b.timestamp_utc ≤ a.timestamp_utc)
      (db.checkins.filter (fun c => c.laptop_serial == serial))).map
    (fun c => ⟨c.hostname, c.ip_address, c.logged_in_user, c.timestamp_utc⟩)

/-! # Error taxonomy and response mapping (src/errors.rs) -/

/-- errors.rs CheckInError; each variant carries the internal detail
(the structured violation set or the library error text). -/
inductive CheckInError where
  | ValidationFailed (errs : List String)
  | DatabaseError (detail : String)
  | SerializationError (detail : String)
deriving DecidableEq

/-- errors.rs IntoResponse for CheckInError: status code and the fixed
client-facing body; the carried detail is only logged, never echoed. -/
def CheckInError.into_response : CheckInError → Nat × String
  | .ValidationFailed _ => (400, "Invalid input data")
  | .DatabaseError _ => (500, "Internal server error")
  | .SerializationError _ => (500, "Internal server error")

/-! # Ingestion handler (handlers.rs checkin) -/

/-- The fallible steps of the checkin handler, in source order; an
oracle selects which (if any) fails, standing for the corresponding
rusqlite call returning Err. -/
inductive TxStep where
  | serialize | openConn | pragmas | beginTx | insertEvent | upsertState | commitTx
deriving DecidableEq

/-- The current-state row the handler writes for a payload. -/
def laptopRowOf (p : CheckIn) (dj : String) : LaptopRow :=
  ⟨p.laptop_serial, p.hostname, p.ip_address, p.logged_in_user, p.timestamp_utc, dj⟩

/-- The audit row the handler writes for a payload. -/
def eventRowOf (id : Nat) (p : CheckIn) (dj : String) : CheckinEventRow :=
  ⟨id, p.laptop_serial, p.hostname, p.ip_address, p.logged_in_user, p.timestamp_utc, dj⟩

/-- Embeds handlers.rs checkin.  Validation runs first and any
violation returns before storage is touched.  Both writes execute
inside one rusqlite transaction: a failure at any step propagates
with the question-mark operator, the transaction is dropped without
commit and SQLite rolls it back, so the store is left exactly as it
was; only a successful commit publishes both rows at once. -/
def checkin (fail : TxStep → Bool) (db : DbState) (p : CheckIn) :
    Except CheckInError Nat × DbState :=
  match CheckIn.validateErrors p with
  | e :: es => (.error (.ValidationFailed (e :: es)), db)
  | [] =>
    if fail .serialize then (.error (.SerializationError "serialize drives"), db) else
    let dj := drives_jsonOf p
    if fail .openConn then (.error (.DatabaseError "open"), db) else
    if fail .pragmas then (.error (.DatabaseError "pragmas"), db) else
    if fail .beginTx then (.error (.DatabaseError "begin transaction"), db) else
    if fail .insertEvent then (.error (.DatabaseError "insert checkin"), db) else
    let db1 := db.insertCheckin p.laptop_serial p.hostname p.ip_address
      p.logged_in_user p.timestamp_utc dj
    if fail .upsertState then (.error (.DatabaseError "upsert laptop"), db) else
    let db2 := db1.upsertLaptopRow (laptopRowOf p dj)
    if fail .commitTx then (.error (.DatabaseError "commit"), db) else
    (.ok 200, db2)

/-- The no-failure oracle: every storage step succeeds. -/
def noFail : TxStep → Bool := fun _ => false

/-- A sequence of accepted check-ins applied in arrival order. -/
def runCheckins (db : DbState) (ps : List CheckIn) : DbState :=
  ps.foldl (fun d p => (checkin noFail d p).2) db

/-! # Read handlers (handlers.rs index, device_detail) -/

/-- One round of Rust str::trim_start_matches: the pattern stripped
from the front when it matches, none otherwise. -/
def stripOnce (pat s : List Char) : Option (List Char) :=
  match pat, s with
  | [], rest => some rest
  | p :: ps, c :: cs => if p == c then stripOnce ps cs else none
  | _ :: _, [] => none

/-- Fuelled loop of trim_start_matches (the handlers' pattern is the
fixed non-empty device-path marker, so the string length bounds the
number of rounds). -/
def trimStartLoop : Nat → List Char → List Char → List Char
  | 0, _, s => s
  | fuel + 1, pat, s =>
    match stripOnce pat s with
    | some s2 => trimStartLoop fuel pat s2
    | none => s

/-- device_id.trim_start_matches of the literal four-character pattern
backslash backslash dot backslash, as both read handlers do. -/
def trimDevicePathMarker (s : String) : String :=
  String.mk (trimStartLoop (s.length + 1) ['\\', '\\', '.', '\\'] s.data)

/-- The per-drive cleanup applied in index and device_detail. -/
def cleanDrive (d : Drive) : Drive :=
  { d with device_id := trimDevicePathMarker d.device_id }

/-- The drive list a read view derives from a stored drives_json
column: serde_json::from_str::<Vec<Drive>> with unwrap_or_default,
then the device-path cleanup — a column that fails to parse silently
becomes the empty list. -/
def parseRowDrives (dj : String) : List Drive :=
  (((parseJson dj).bind decodeDrives).getD []).map cleanDrive

/-- models.rs IndexLaptopRow: a laptops row prepared for the index
page. -/
structure IndexLaptopRow where
  laptop_serial : String
  hostname : String
  ip_address : String
  logged_in_user : Option String
  last_seen_utc : String
  drive_serials_display : String
deriving DecidableEq

/-- The index page's per-row conversion (handlers.rs index): parsed
drives' serial numbers joined for display, a dash when none. -/
def indexRowOf (row : LaptopRow) : IndexLaptopRow :=
  let drives := parseRowDrives row.drives_json
  let serials := drives.filterMap (fun d => d.serial_number)
  ⟨row.laptop_serial, row.hostname, row.ip_address, row.logged_in_user,
   row.last_seen_utc,
   if serials.isEmpty then "-" else joinSep "<br>" serials⟩

/-- Embeds handlers.rs index.  The connection open and the laptops
query are the two fallible steps; each maps its library error text
into the client-facing 500 body with format.  (The HTML rendering of
the resulting rows is outside the core.) -/
def index (dbOpen : Except String DbState) (queryFail : Option String) :
    Except (Nat × String) (List IndexLaptopRow) :=
  match dbOpen with
  | .error e => .error (500, "db open: " ++ e)
  | .ok db =>
    match queryFail with
    | some e => .error (500, "query laptops: " ++ e)
    | none => .ok ((get_all_laptops db).map indexRowOf)

/-- handlers.rs DeviceTemplate: the data handed to the device page. -/
structure DeviceTemplate where
  laptop : LaptopRow
  drives : List Drive
  checkins : List CheckinRow
deriving DecidableEq

/-- Embeds handlers.rs device_detail: open the store, look the serial
up (absence is a 404 whose body embeds the requested serial), parse
and clean the stored drives, fetch the history.  A failed connection
open maps its error text into the 500 body; the in-model queries are
total, and the source maps their errors the same way. -/
def device_detail (dbOpen : Except String DbState) (serial : String) :
    Except (Nat × String) DeviceTemplate :=
  match dbOpen with
  | .error e => .error (500, "db open: " ++ e)
  | .ok db =>
    match get_laptop_by_serial db serial with
    | none => .error (404, "Device not found: " ++ serial)
    | some laptop =>
      .ok ⟨laptop, parseRowDrives laptop.drives_json, get_checkins_by_serial db serial⟩

/-! # Router and admission control (src/main.rs) -/

/-- One registered route with the middleware applied to it. -/
structure Route where
  path : String
  rateLimited : Bool
deriving DecidableEq

/-- Router::route in axum: appends a route; no middleware yet. -/
def routeAdd (rs : List Route) (p : String) : List Route :=
  rs ++ [⟨p, false⟩]

/-- Router::layer in axum wraps every route registered before the
call; the GovernorLayer in main.rs is inside that ServiceBuilder. -/
def layerGovernor (rs : List Route) : List Route :=
  rs.map (fun r => { r with rateLimited := true })

/-- main.rs constant RATE_LIMIT_BURST. -/
def RATE_LIMIT_BURST : Nat := 20

/-- The router built in main.rs in source order: health, ready, index,
device, checkin are all registered first and the governor layer is
applied afterwards. -/
def appRoutes : List Route :=
  layerGovernor
    (routeAdd (routeAdd (routeAdd (routeAdd (routeAdd [] "/health") "/ready")
      "/") "/device/:serial") "/checkin")

/-- Whether a request path goes through the rate-limit middleware. -/
def routeIsRateLimited (p : String) : Bool :=
  match appRoutes.find? (fun r => r.path == p) with
  | some r => r.rateLimited
  | none => false

/-- Modelled from the spec: the per-address token bucket of the
tower_governor crate (its code is not part of this repository) —
"a sustained-rate replenishment with a larger one-time burst
allowance; requests beyond the bucket's capacity are rejected
immediately."  Within one instant no replenishment happens, so of a
same-instant burst from one address only the first burst-many
requests are admitted; this decides whether request number i
(0-based) of such a burst passes the bucket. -/
def bucketAllows (burst i : Nat) : Bool :=
  i < burst

/-- Whether request number i of a same-instant burst from one address
to path p is rejected by rate limiting. -/
def requestRejected (p : String) (i : Nat) : Bool :=
  routeIsRateLimited p && !bucketAllows RATE_LIMIT_BURST i

/-! # Shared helper lemmas -/

/-- A successful no-failure checkin in closed form: one appended audit
row, the upserted current-state row, the bumped id. -/
theorem checkin_noFail_accepted (db : DbState) (p : CheckIn)
    (hv : CheckIn.validateErrors p = []) :
    (checkin noFail db p).2
      = { laptops := upsertLaptop (laptopRowOf p (drives_jsonOf p)) db.laptops,
          checkins := db.checkins ++ [eventRowOf db.nextId p (drives_jsonOf p)],
          nextId := db.nextId + 1 } := by
  simp [checkin, hv, noFail, DbState.insertCheckin, DbState.upsertLaptopRow,
    laptopRowOf, eventRowOf]

/-- Filtering an upsert for the upserted serial yields exactly the new
row, provided the primary-key invariant held before. -/
theorem upsertLaptop_filter_self (s : String) (row : LaptopRow)
    (hrow : row.laptop_serial = s) (l : List LaptopRow)
    (hinv : (l.filter (fun x => x.laptop_serial == s)).length ≤ 1) :
    (upsertLaptop row l).filter (fun x => x.laptop_serial == s) = [row] := by
  induction l with
  | nil => simp [upsertLaptop, List.filter, hrow]
  | cons a l ih =>
    cases hc : a.laptop_serial == s with
    | true =>
      have has : a.laptop_serial = s := by simpa using hc
      have hcr : (a.laptop_serial == row.laptop_serial) = true := by
        rw [hrow]; exact hc
      have hzero : (l.filter (fun x => x.laptop_serial == s)).length = 0 := by
        rw [List.filter_cons_of_pos (by simpa using hc)] at hinv
        simpa using hinv
      have hnil : l.filter (fun x => x.laptop_serial == s) = [] :=
        List.length_eq_zero.mp hzero
      simp [upsertLaptop, hcr, has, List.filter_cons, hrow, hnil]
    | false =>
      have hcr : (a.laptop_serial == row.laptop_serial) = false := by
        rw [hrow]; exact hc
      have hinv2 : (l.filter (fun x => x.laptop_serial == s)).length ≤ 1 := by
        rw [List.filter_cons_of_neg (by simp [hc])] at hinv
        exact hinv
      simp [upsertLaptop, hcr, List.filter_cons, hc, ih hinv2]

/-! # C7 -/

/-- C7: contrary to the claim (and to the comment in main.rs), the
health and readiness routes are registered before Router::layer is
called, so the governor middleware wraps them too; once a client
address has spent its burst allowance, request number
RATE_LIMIT_BURST of a same-instant burst to GET /health or
GET /ready is rejected by rate limiting. -/
theorem c7_health_ready_are_rate_limited :
    routeIsRateLimited "/health" = true
    ∧ routeIsRateLimited "/ready" = true
    ∧ requestRejected "/health" RATE_LIMIT_BURST = true
    ∧ requestRejected "/ready" RATE_LIMIT_BURST = true := by
  exact ⟨rfl, rfl, rfl, rfl⟩

/-! # C8 -/

/-- C8 counterexample: on the read path the 500 body embeds the
database error text, so two runs differing only in that text produce
different client-facing responses, refuting the claim as stated. -/
theorem c8_counterexample :
    index (.error "disk I/O error") none ≠ index (.error "database is locked") none := by
  simp only [index, ne_eq, Except.error.injEq, Prod.mk.injEq]
  intro h
  exact absurd h.2 (by decide)

/-- C8 amended: on the check-in path the response body is one of the
fixed generic messages, independent of the carried detail; on the
read paths (GET / and GET /device/serial) a failed connection open
puts the formatted error text into the 500 body, so those responses
do vary with the internal detail. -/
theorem c8_generic_only_on_checkin_path :
    (∀ e1 e2 : List String,
        CheckInError.into_response (.ValidationFailed e1)
          = CheckInError.into_response (.ValidationFailed e2))
    ∧ (∀ d1 d2 : String,
        CheckInError.into_response (.DatabaseError d1)
          = CheckInError.into_response (.DatabaseError d2))
    ∧ (∀ d1 d2 : String,
        CheckInError.into_response (.SerializationError d1)
          = CheckInError.into_response (.SerializationError d2))
    ∧ (∀ errs : List String,
        CheckInError.into_response (.ValidationFailed errs) = (400, "Invalid input data"))
    ∧ (∀ e : String, index (.error e) none = .error (500, "db open: " ++ e))
    ∧ (∀ e s, device_detail (.error e) s = .error (500, "db open: " ++ e)) :=
  ⟨fun _ _ => rfl, fun _ _ => rfl, fun _ _ => rfl, fun _ => rfl,
   fun _ => rfl, fun _ _ => rfl⟩

/-! # C10 -/

/-- C10: a lookup of an absent serial produces the 404 response whose
body is the fixed text followed by the caller-supplied serial
verbatim. -/
theorem c10_not_found_reflects_serial (db : DbState) (serial : String)
    (habs : get_laptop_by_serial db serial = none) :
    device_detail (.ok db) serial = .error (404, "Device not found: " ++ serial) := by
  simp [device_detail, habs]

/-- Concrete instance of the 404 reflection. -/
theorem c10_not_found_reflects_serial_witness :
    device_detail (.ok DbState.empty) "SN-MISSING"
      = .error (404, "Device not found: " ++ "SN-MISSING") :=
  c10_not_found_reflects_serial DbState.empty "SN-MISSING" rfl

/-! # C9 -/

/-- C9: a stored current-state row whose drives_json column does not
parse as a drive array is rendered with an empty drive list on both
read views (a dash in the index serial column, an empty drive list
and a normal 200 template on the device page) instead of an error. -/
theorem c9_corrupt_drives_masked (row : LaptopRow) (db : DbState)
    (hbad : (parseJson row.drives_json).bind decodeDrives = none) :
    parseRowDrives row.drives_json = []
    ∧ (indexRowOf row).drive_serials_display = "-"
    ∧ ∀ serial, get_laptop_by_serial db serial = some row →
        device_detail (.ok db) serial
          = .ok ⟨row, [], get_checkins_by_serial db serial⟩ := by
  have h1 : parseRowDrives row.drives_json = [] := by
    unfold parseRowDrives
    rw [hbad]
    rfl
  refine ⟨h1, ?_, ?_⟩
  · simp [indexRowOf, h1]
  · intro serial hs
    simp [device_detail, hs, h1]

/-- The current-state row with an unparseable drives column used to
instantiate C9. -/
def corruptRow : LaptopRow :=
  ⟨"SN-C", "corrupt-host", "10.0.0.1", none, "2025-01-01T00:00:00Z", "corrupt"⟩

/-- A store holding only the corrupt row. -/
def corruptDb : DbState := ⟨[corruptRow], [], 1⟩

/-- Concrete instance of the corrupt-drives masking. -/
theorem c9_corrupt_drives_masked_witness :
    (parseJson corruptRow.drives_json).bind decodeDrives = none
    ∧ (indexRowOf corruptRow).drive_serials_display = "-"
    ∧ device_detail (.ok corruptDb) "SN-C"
        = .ok ⟨corruptRow, [], get_checkins_by_serial corruptDb "SN-C"⟩ := by
  have h := c9_corrupt_drives_masked corruptRow corruptDb rfl
  exact ⟨rfl, h.2.1, h.2.2 "SN-C" rfl⟩

/-! # C5 -/

/-- C5: a payload with any semantic validation violation is rejected
with the generic 400 client-facing failure, and the store is exactly
as it was — the rejection happens before any storage step runs. -/
theorem c5_validation_rejects_before_storage (fail : TxStep → Bool)
    (db : DbState) (p : CheckIn) (hbad : CheckIn.validateErrors p ≠ []) :
    (checkin fail db p).2 = db
    ∧ ∃ errs, errs ≠ []
        ∧ (checkin fail db p).1 = .error (.ValidationFailed errs)
        ∧ CheckInError.into_response (.ValidationFailed errs)
            = (400, "Invalid input data") := by
  cases hv : CheckIn.validateErrors p with
  | nil => exact absurd hv hbad
  | cons e es =>
    refine ⟨by simp [checkin, hv], e :: es, by simp, by simp [checkin, hv], rfl⟩

/-- The hostname-with-spaces payload used to instantiate C5. -/
def badHostnamePayload : CheckIn :=
  ⟨"invalid hostname with spaces", "192.168.1.1", none, "SN001", [],
   "2024-01-15T10:00:00Z"⟩

/-- Concrete instance of the validation boundary. -/
theorem c5_validation_rejects_before_storage_witness :
    CheckIn.validateErrors badHostnamePayload ≠ []
    ∧ (checkin noFail DbState.empty badHostnamePayload).2 = DbState.empty
    ∧ (checkin noFail DbState.empty badHostnamePayload).1
        = .error (.ValidationFailed ["hostname"]) := by
  have h := c5_validation_rejects_before_storage noFail DbState.empty
    badHostnamePayload (by decide)
  exact ⟨by decide, h.1, by rfl⟩

/-! # C1 -/

/-- C1: for an accepted check-in, failure at any step of the write
sequence leaves both tables exactly as they were and surfaces as one
error to the caller, while success appends exactly one new audit row
and applies exactly one insert-or-overwrite of the current-state row,
both from the same payload. -/
theorem c1_atomic_write (fail : TxStep → Bool) (db : DbState) (p : CheckIn)
    (hvalid : CheckIn.validateErrors p = []) :
    (∀ e, (checkin fail db p).1 = .error e → (checkin fail db p).2 = db)
    ∧ ((checkin fail db p).1.isOk = true →
        (checkin fail db p).2.checkins
          = db.checkins ++ [eventRowOf db.nextId p (drives_jsonOf p)]
        ∧ (checkin fail db p).2.laptops
          = upsertLaptop (laptopRowOf p (drives_jsonOf p)) db.laptops) := by
  simp only [checkin, hvalid]
  cases h1 : fail .serialize <;> cases h2 : fail .openConn <;>
    cases h3 : fail .pragmas <;> cases h4 : fail .beginTx <;>
    cases h5 : fail .insertEvent <;> cases h6 : fail .upsertState <;>
    cases h7 : fail .commitTx <;>
    simp [DbState.insertCheckin, DbState.upsertLaptopRow, Except.isOk,
      Except.toBool, eventRowOf, laptopRowOf]

/-- The oracle failing exactly at the audit-row insert. -/
def failAtInsert : TxStep → Bool := fun t => t == TxStep.insertEvent

/-- A fully valid payload (one drive with a device path) used to
instantiate C1. -/
def wPayload : CheckIn :=
  ⟨"TEST-LAPTOP-001", "192.168.1.100", some "testuser", "SN123456789",
   [⟨"Samsung SSD 970 EVO", some "S4EVNX0M123456", "\\\\.\\PhysicalDrive0"⟩],
   "2024-01-15T10:30:00Z"⟩

/-- Concrete instance of the atomic write: the store is untouched when
the insert fails, and both rows appear when nothing fails. -/
theorem c1_atomic_write_witness :
    CheckIn.validateErrors wPayload = []
    ∧ (checkin failAtInsert DbState.empty wPayload).2 = DbState.empty
    ∧ (checkin noFail DbState.empty wPayload).2.checkins
        = DbState.empty.checkins
          ++ [eventRowOf DbState.empty.nextId wPayload (drives_jsonOf wPayload)]
    ∧ (checkin noFail DbState.empty wPayload).2.laptops
        = upsertLaptop (laptopRowOf wPayload (drives_jsonOf wPayload))
            DbState.empty.laptops := by
  have hv : CheckIn.validateErrors wPayload = [] := by decide
  have hfail := c1_atomic_write failAtInsert DbState.empty wPayload hv
  have hok := c1_atomic_write noFail DbState.empty wPayload hv
  exact ⟨hv, hfail.1 (.DatabaseError "insert checkin") (by rfl),
    (hok.2 (by rfl)).1, (hok.2 (by rfl)).2⟩

/-! # C6 -/

/-- The keys of a JSON object (used to state what the stored snapshot
contains). -/
def jsonObjKeys : Json → List String
  | .obj kvs => kvs.map Prod.fst
  | _ => []

/-- The three field names the derived Drive deserializer recognizes. -/
def knownDriveKey (k : String) : Bool :=
  k == "model" || k == "serial_number" || k == "device_id"

/-- A request drive array whose object carries the extra fields
size_bytes and media_type (as the repository's own tests send). -/
def extraFieldDriveJson : Json :=
  .arr [.obj [("model", .str "Samsung SSD 970 EVO"),
              ("device_id", .str "PD0"),
              ("serial_number", .str "S4"),
              ("size_bytes", .num "500107862016"),
              ("media_type", .str "SSD")]]

/-- The payload that drive array deserializes into. -/
def extraFieldPayload : CheckIn :=
  ⟨"TEST-LAPTOP-002", "192.168.1.101", none, "SN-EXTRA",
   [⟨"Samsung SSD 970 EVO", some "S4", "PD0"⟩], "2024-01-15T10:30:00Z"⟩

/-- C6 counterexample: the drive object with extra fields deserializes
successfully, but the snapshot the handler persists in both tables
contains only the three declared fields — the extra fields are not
stored, so the stored document differs from the verbatim input. -/
theorem c6_counterexample :
    decodeDrives extraFieldDriveJson = some extraFieldPayload.drives
    ∧ ((checkin noFail DbState.empty extraFieldPayload).2.laptops.map
        LaptopRow.drives_json)
        = ["[\x7b\"model\":\"Samsung SSD 970 EVO\",\"serial_number\":\"S4\",\"device_id\":\"PD0\"\x7d]"]
    ∧ ((checkin noFail DbState.empty extraFieldPayload).2.checkins.map
        CheckinEventRow.drives_json)
        = ["[\x7b\"model\":\"Samsung SSD 970 EVO\",\"serial_number\":\"S4\",\"device_id\":\"PD0\"\x7d]"]
    ∧ drives_jsonOf extraFieldPayload ≠ renderJson extraFieldDriveJson := by
  exact ⟨rfl, rfl, rfl, by decide⟩

/-- C6 amended: additional fields in a drive object are skipped by the
deserializer without any validation (a single unknown-key member
never changes the outcome), and the persisted snapshot of every
drive consists of exactly the fields model, serial_number and
device_id — extra input fields are dropped, not stored. -/
theorem c6_extra_fields_ignored_not_stored :
    (∀ d : Drive,
        jsonObjKeys (serializeDrive d) = ["model", "serial_number", "device_id"])
    ∧ (∀ k v fields st, knownDriveKey k = false →
        decodeDriveFields ((k, v) :: fields) st = decodeDriveFields fields st) := by
  constructor
  · intro d; rfl
  · intro k v fields st hk
    have h3 : (k == "model") = false ∧ (k == "serial_number") = false
        ∧ (k == "device_id") = false := by
      constructor
      · cases hm : k == "model" with
        | true => rw [knownDriveKey, hm] at hk; simp at hk
        | false => rfl
      constructor
      · cases hm : k == "serial_number" with
        | true => rw [knownDriveKey, hm] at hk; simp at hk
        | false => rfl
      · cases hm : k == "device_id" with
        | true => rw [knownDriveKey, hm] at hk; simp at hk
        | false => rfl
    simp [decodeDriveFields, h3.1, h3.2.1, h3.2.2]

/-- Concrete instance of the skip-unknown clause and the stored-keys
clause of the amended C6. -/
theorem c6_extra_fields_ignored_not_stored_witness :
    knownDriveKey "size_bytes" = false
    ∧ decodeDriveFields [("size_bytes", Json.num "500107862016")] ⟨none, none, none⟩
        = decodeDriveFields [] ⟨none, none, none⟩
    ∧ jsonObjKeys (serializeDrive ⟨"WD Blue", none, "PD1"⟩)
        = ["model", "serial_number", "device_id"] := by
  have h := c6_extra_fields_ignored_not_stored
  exact ⟨by decide,
    h.2 "size_bytes" (Json.num "500107862016") [] ⟨none, none, none⟩ (by decide),
    h.1 ⟨"WD Blue", none, "PD1"⟩⟩

/-! # C3 -/

instance : IsTotal CheckinEventRow
    (fun a b => b.timestamp_utc ≤ a.timestamp_utc) :=
  ⟨fun a b => le_total b.timestamp_utc a.timestamp_utc⟩

instance : IsTrans CheckinEventRow
    (fun a b => b.timestamp_utc ≤ a.timestamp_utc) :=
  ⟨fun _ _ _ h1 h2 => le_trans h2 h1⟩

instance : IsTotal LaptopRow (fun a b => b.last_seen_utc ≤ a.last_seen_utc) :=
  ⟨fun a b => le_total b.last_seen_utc a.last_seen_utc⟩

instance : IsTrans LaptopRow (fun a b => b.last_seen_utc ≤ a.last_seen_utc) :=
  ⟨fun _ _ _ h1 h2 => le_trans h2 h1⟩

/-- C3: for every store state and serial, the history query returns
rows in non-increasing timestamp order, and the current-state listing
returns rows in non-increasing last-seen order. -/
theorem c3_query_ordering (db : DbState) (serial : String) :
    List.Sorted (fun a b : CheckinRow => b.timestamp_utc ≤ a.timestamp_utc)
      (get_checkins_by_serial db serial)
    ∧ List.Sorted (fun a b : LaptopRow => b.last_seen_utc ≤ a.last_seen_utc)
      (get_all_laptops db) := by
  constructor
  · have hs := List.sorted_insertionSort
      (fun a b : CheckinEventRow => b.timestamp_utc ≤ a.timestamp_utc)
      (db.checkins.filter (fun c => c.laptop_serial == serial))
    exact List.Pairwise.map _ (fun a b h => h) hs
  · exact List.sorted_insertionSort
      (fun a b : LaptopRow => b.last_seen_utc ≤ a.last_seen_utc) db.laptops

/-! # C4 -/

/-- Acceptance of a hostname in checkin: the length rule of the
validate attribute (1..=63 characters) together with the custom
validate_hostname rule, the two checks models.rs attaches to the
hostname field. -/
def hostnameAccepted (s : String) : Bool :=
  lengthBetween 1 63 s && validate_hostname s

/-- The specification's wording of the hostname rule: 1 to 63
characters, every character ASCII alphanumeric, hyphen or
underscore, and the first and last characters alphanumeric. -/
def SpecHostnameOk (s : String) : Prop :=
  1 ≤ s.length ∧ s.length ≤ 63
  ∧ (∀ c ∈ s.data, c.isAlphanum = true ∨ c = '-' ∨ c = '_')
  ∧ (∃ c, s.data.head? = some c ∧ c.isAlphanum = true)
  ∧ (∃ c, s.data.getLast? = some c ∧ c.isAlphanum = true)

/-- C4: a hostname is accepted exactly when the spec's rule holds; in
particular the underscore-leading example is rejected and the mixed
separators example accepted. -/
theorem c4_hostname_rule :
    (∀ s : String, hostnameAccepted s = true ↔ SpecHostnameOk s)
    ∧ hostnameAccepted "_INVALID" = false
    ∧ hostnameAccepted "WIN_DESKTOP-01" = true := by
  refine ⟨fun s => ?_, by decide, by decide⟩
  unfold hostnameAccepted validate_hostname lengthBetween SpecHostnameOk
  simp only [Bool.and_eq_true, decide_eq_true_eq, List.all_eq_true]
  constructor
  · rintro ⟨⟨hlo, hhi⟩, ⟨hall, hhead⟩, hlast⟩
    refine ⟨hlo, hhi, ?_, ?_, ?_⟩
    · intro c hc
      have hco := hall c hc
      simp only [Bool.or_eq_true, beq_iff_eq] at hco
      tauto
    · cases hh : s.data.head? with
      | none => rw [hh] at hhead; exact absurd hhead (by simp)
      | some c => rw [hh] at hhead; exact ⟨c, rfl, hhead⟩
    · cases hl : s.data.getLast? with
      | none => rw [hl] at hlast; exact absurd hlast (by simp)
      | some c => rw [hl] at hlast; exact ⟨c, rfl, hlast⟩
  · rintro ⟨hlo, hhi, hall, ⟨c1, hc1, hc1a⟩, ⟨c2, hc2, hc2a⟩⟩
    refine ⟨⟨hlo, hhi⟩, ⟨?_, ?_⟩, ?_⟩
    · intro c hc
      have hco := hall c hc
      simp only [Bool.or_eq_true, beq_iff_eq]
      tauto
    · rw [hc1]; exact hc1a
    · rw [hc2]; exact hc2a

/-! # C2 -/

/-- C2: starting from any store satisfying the primary-key invariant
for serial s, a non-empty sequence of accepted check-ins for s
leaves exactly one current-state row for s, every field of which
comes from the last check-in by arrival order (no condition relates
the embedded timestamps), while the audit log gains one row per
accepted check-in. -/
theorem c2_last_write_wins (s : String) (ps : List CheckIn) (db : DbState)
    (q : CheckIn)
    (hinv : (db.laptops.filter (fun l => l.laptop_serial == s)).length ≤ 1)
    (hall : ∀ p ∈ ps, p.laptop_serial = s ∧ CheckIn.validateErrors p = [])
    (hlast : ps.getLast? = some q) :
    (runCheckins db ps).laptops.filter (fun l => l.laptop_serial == s)
      = [laptopRowOf q (drives_jsonOf q)]
    ∧ ((runCheckins db ps).checkins.filter
        (fun c => c.laptop_serial == s)).length
      = (db.checkins.filter (fun c => c.laptop_serial == s)).length
        + ps.length := by
  induction ps generalizing db with
  | nil => simp at hlast
  | cons p rest ih =>
    have hp := hall p (List.mem_cons_self p rest)
    have hstep := checkin_noFail_accepted db p hp.2
    have hrun : runCheckins db (p :: rest)
        = runCheckins ((checkin noFail db p).2) rest := rfl
    have hlap1 : (checkin noFail db p).2.laptops
        = upsertLaptop (laptopRowOf p (drives_jsonOf p)) db.laptops := by
      rw [hstep]
    have hchk1 : (checkin noFail db p).2.checkins
        = db.checkins ++ [eventRowOf db.nextId p (drives_jsonOf p)] := by
      rw [hstep]
    have hfilter1 : (checkin noFail db p).2.laptops.filter
        (fun l => l.laptop_serial == s) = [laptopRowOf p (drives_jsonOf p)] := by
      rw [hlap1]
      exact upsertLaptop_filter_self s (laptopRowOf p (drives_jsonOf p))
        hp.1 db.laptops hinv
    have hcount1 : ((checkin noFail db p).2.checkins.filter
        (fun c => c.laptop_serial == s)).length
        = (db.checkins.filter (fun c => c.laptop_serial == s)).length + 1 := by
      rw [hchk1, List.filter_append]
      have hpass : ((eventRowOf db.nextId p (drives_jsonOf p)).laptop_serial == s)
          = true := by
        simp [eventRowOf, hp.1]
      simp [List.filter_cons, hpass]
    cases rest with
    | nil =>
      have hq : q = p := by simp at hlast; exact hlast.symm
      subst hq
      rw [hrun]
      refine ⟨hfilter1, ?_⟩
      rw [show runCheckins (checkin noFail db q).2 [] = (checkin noFail db q).2 from rfl,
        hcount1]
      rfl
    | cons r rest2 =>
      have hall2 : ∀ x ∈ r :: rest2, x.laptop_serial = s
          ∧ CheckIn.validateErrors x = [] := by
        intro x hx
        exact hall x (List.mem_cons_of_mem p hx)
      have hinv2 : ((checkin noFail db p).2.laptops.filter
          (fun l => l.laptop_serial == s)).length ≤ 1 := by
        rw [hfilter1]; simp
      have hlast2 : (r :: rest2).getLast? = some q := by
        rw [List.getLast?_cons_cons] at hlast; exact hlast
      have hrec := ih ((checkin noFail db p).2) hinv2 hall2 hlast2
      rw [hrun]
      refine ⟨hrec.1, ?_⟩
      rw [hrec.2, hcount1]
      simp [List.length_cons]
      omega

/-- First check-in for serial SN001. -/
def wFirst : CheckIn :=
  ⟨"host-v1", "192.168.1.1", some "user1", "SN001", [], "2025-12-18T10:00:00Z"⟩

/-- Second check-in for SN001, arriving later but carrying an OLDER
embedded timestamp. -/
def wSecond : CheckIn :=
  ⟨"host-v2", "192.168.1.2", some "user2", "SN001", [], "2025-12-17T09:00:00Z"⟩

/-- Concrete instance of last-write-wins: after both check-ins the
store holds one current-state row for SN001 with the values of the
later arrival (despite its older timestamp) and two audit rows. -/
theorem c2_last_write_wins_witness :
    (runCheckins DbState.empty [wFirst, wSecond]).laptops.filter
      (fun l => l.laptop_serial == "SN001")
      = [laptopRowOf wSecond (drives_jsonOf wSecond)]
    ∧ ((runCheckins DbState.empty [wFirst, wSecond]).checkins.filter
        (fun c => c.laptop_serial == "SN001")).length
      = (DbState.empty.checkins.filter
          (fun c => c.laptop_serial == "SN001")).length + 2 := by
  have h := c2_last_write_wins "SN001" [wFirst, wSecond] DbState.empty wSecond
    (by decide) (by decide) (by decide)
  exact ⟨h.1, h.2⟩

/-- A two-event store used to instantiate the ordering property. -/
def orderingDb : DbState :=
  ⟨[⟨"SN001", "h2", "10.0.0.2", none, "2026-01-02T00:00:00Z", "[]"⟩,
    ⟨"SN002", "h3", "10.0.0.3", none, "2026-01-03T00:00:00Z", "[]"⟩],
   [⟨1, "SN001", "h1", "10.0.0.1", none, "2026-01-01T00:00:00Z", "[]"⟩,
    ⟨2, "SN001", "h2", "10.0.0.2", none, "2026-01-02T00:00:00Z", "[]"⟩],
   3⟩

/-- Concrete instance of the query ordering. -/
theorem c3_query_ordering_witness :
    List.Sorted (fun a b : CheckinRow => b.timestamp_utc ≤ a.timestamp_utc)
      (get_checkins_by_serial orderingDb "SN001")
    ∧ List.Sorted (fun a b : LaptopRow => b.last_seen_utc ≤ a.last_seen_utc)
      (get_all_laptops orderingDb) :=
  c3_query_ordering orderingDb "SN001"

/-- Concrete instance of the hostname rule, through the equivalence. -/
theorem c4_hostname_rule_witness : SpecHostnameOk "WIN_DESKTOP-01" :=
  (c4_hostname_rule.1 "WIN_DESKTOP-01").mp (by decide)
